import Mathlib

/-!
Shallow embedding of `src/main.go` (ugnic/ec2-manager): an EC2 terminal
dashboard.  Provider-side records model the AWS SDK types with pointer
fields as `Option`; the Go functions `getInstances`, `joinStrings`,
`refreshTable`, the key-input capture handler and `showMessage` are
translated into pure Lean functions.  A nil-pointer dereference in Go
(a panic) is modelled as `Option.none`.
-/

set_option autoImplicit false

namespace EC2Manager

/-- AWS SDK `types.Tag`: both fields are `*string` in Go. -/
structure Tag where
  key : Option String
  value : Option String
deriving DecidableEq, Repr

/-- AWS SDK `types.GroupIdentifier`: `GroupId` is `*string`. -/
structure GroupIdentifier where
  groupId : Option String
deriving DecidableEq, Repr

/-- AWS SDK `types.InstanceNetworkInterface`, restricted to the one field read. -/
structure InstanceNetworkInterface where
  privateIpAddress : Option String
deriving DecidableEq, Repr

/-- AWS SDK `types.InstanceState`: `Name` is a string-valued enum type. -/
structure InstanceState where
  name : String
deriving DecidableEq, Repr

/-- AWS SDK `types.Instance`, restricted to the fields `getInstances` reads.
`Platform` is a string-valued type (not a pointer) in the SDK; `InstanceId`,
`PublicIpAddress` are `*string` and `State` is `*types.InstanceState`. -/
structure AwsInstance where
  tags : List Tag
  platform : String
  publicIpAddress : Option String
  networkInterfaces : List InstanceNetworkInterface
  securityGroups : List GroupIdentifier
  instanceId : Option String
  state : Option InstanceState
deriving DecidableEq, Repr

/-- AWS SDK `types.Reservation`, restricted to its instance list. -/
structure Reservation where
  instances : List AwsInstance
deriving DecidableEq, Repr

/-- AWS SDK `ec2.DescribeInstancesOutput`, restricted to `Reservations`. -/
structure DescribeInstancesOutput where
  reservations : List Reservation
deriving DecidableEq, Repr

/-- The display record built by `getInstances` (Go struct `Instance`). -/
structure Instance where
  globalIP : String
  instanceId : String
  name : String
  platform : String
  privateIp : String
  securityGroupId : String
  state : String
deriving DecidableEq, Repr

/-- A provider call either returns a value or a Go `error`. -/
inductive PResult (α : Type) where
  | ok : α → PResult α
  | err : String → PResult α
deriving DecidableEq, Repr

/-- Go `joinStrings(slice, sep)`: `""` on the empty slice, otherwise
`slice[0]` followed by `sep + slice[i]` for each later element. -/
def joinStrings : List String → String → String
  | [], _ => ""
  | x :: xs, sep => xs.foldl (fun r s => r ++ sep ++ s) x

/-- The `Name`-tag scan in `getInstances`: walk the tags in order,
dereference `tag.Key` (panic if nil), stop at the first key equal to
`"Name"` and dereference its value (panic if nil); `""` if no tag matches.
Tags after the first match are never examined (`break`). -/
def scanNameTag : List Tag → Option String
  | [] => some ""
  | t :: ts =>
    match t.key with
    | none => none
    | some k => if k = "Name" then t.value else scanNameTag ts

/-- The security-group loop in `getInstances`: collect `*sg.GroupId` for each
group in order, panicking (none) on a nil `GroupId`. -/
def collectGroupIds : List GroupIdentifier → Option (List String)
  | [] => some []
  | g :: gs =>
    match g.groupId with
    | none => none
    | some gid => (collectGroupIds gs).map (fun rest => gid :: rest)

/-- The per-instance body of the `getInstances` loop: builds one display
`Instance`, or `none` where the Go code would dereference a nil pointer. -/
def mapInstance (i : AwsInstance) : Option Instance := do
  let name ← scanNameTag i.tags
  let sgIds ← collectGroupIds i.securityGroups
  let iid ← i.instanceId
  let st ← i.state
  pure
    { globalIP := (i.publicIpAddress).getD ""
      instanceId := iid
      name := name
      platform := if i.platform = "" then "None" else i.platform
      privateIp :=
        match i.networkInterfaces with
        | [] => ""
        | ni :: _ => (ni.privateIpAddress).getD ""
      securityGroupId := joinStrings sgIds ", "
      state := st.name }

/-- The `getInstances` loop over the flattened instance list, in order. -/
def mapInstances : List AwsInstance → Option (List Instance)
  | [] => some []
  | i :: is => do
    let r ← mapInstance i
    let rs ← mapInstances is
    pure (r :: rs)

/-- The reservation flattening of `getInstances`: reservations in response
order, instances within each reservation in order. -/
def flattenInstances (out : DescribeInstancesOutput) : List AwsInstance :=
  (out.reservations.map Reservation.instances).flatten

/-- Go `(*EC2Client).getInstances`, as a function of the provider response:
a failed `DescribeInstances` call is returned as the error; on success each
instance of each reservation is mapped in order (outer `Option` = panic). -/
def getInstances (resp : PResult DescribeInstancesOutput) :
    Option (PResult (List Instance)) :=
  match resp with
  | .err e => some (.err e)
  | .ok out => (mapInstances (flattenInstances out)).map PResult.ok

/-- A tcell text color, restricted to the ones the program sets. -/
inductive Color where
  | default
  | green
  | red
  | yellow
deriving DecidableEq, Repr

/-- A table cell: its text and its text color (`default` for a fresh cell). -/
structure Cell where
  text : String
  color : Color
deriving DecidableEq, Repr

/-- One table row: the seven cells set for an instance. -/
abbrev Row : Type := List Cell

/-- The state-cell coloring in `refreshTable`: the Go `switch` on
`instance.State` against the SDK constants (`"running"`, `"stopped"`,
`"pending"`, `"stopping"`); any other value keeps the fresh cell's color. -/
def stateColor (s : String) : Color :=
  if s = "running" then .green
  else if s = "stopped" then .red
  else if s = "pending" then .yellow
  else if s = "stopping" then .yellow
  else .default

/-- The row written by `refreshTable` for one instance: columns 0..5 with
default color, column 6 colored by `stateColor`. -/
def renderRow (inst : Instance) : Row :=
  [ ⟨inst.globalIP, .default⟩,
    ⟨inst.instanceId, .default⟩,
    ⟨inst.name, .default⟩,
    ⟨inst.platform, .default⟩,
    ⟨inst.privateIp, .default⟩,
    ⟨inst.securityGroupId, .default⟩,
    ⟨inst.state, stateColor inst.state⟩ ]

/-- All data rows written by one successful refresh, in list order. -/
def renderRows (l : List Instance) : List Row :=
  l.map renderRow

/-- Go `refreshTable`, as a function of the `getInstances` outcome and the
current rows below the header: on error it returns before touching the
table; on success it removes every row below the header and repopulates. -/
def refreshTable (outcome : PResult (List Instance)) (rows : List Row) :
    List Row × Option String :=
  match outcome with
  | .err e => (rows, some e)
  | .ok instances => (renderRows instances, none)

/-- `table.GetCell(row, col).Text` for a data-row index: row `r ≥ 1` holds
the record at position `r - 1`; a cell that was never set reads as `""`. -/
def cellText (rows : List Row) (row col : Nat) : String :=
  match (rows.get? (row - 1)).bind (fun r => r.get? col) with
  | some c => c.text
  | none => ""

/-- A tcell key event, as the handler distinguishes them: a rune key with
its character, or any non-rune key. -/
inductive KeyEvent where
  | rune : Char → KeyEvent
  | other : KeyEvent
deriving DecidableEq, Repr

/-- An observable action of the input-capture handler: a provider call, a
modal message via `showMessage`, or stopping the application. -/
inductive Effect where
  | startCall : String → Effect
  | stopCall : String → Effect
  | listCall : Effect
  | showMessage : String → Effect
  | stopApp : Effect
deriving DecidableEq, Repr

/-- The provider outcomes the handler's calls would observe: `none` means
the start/stop call succeeds, `some e` that it fails with error `e`. -/
structure Env where
  startResult : String → Option String
  stopResult : String → Option String
  listOutcome : PResult (List Instance)

/-- The `table.SetInputCapture` handler in `main`: given the selected row
and the rows below the header, returns the emitted effects in order, the
rows after the handler ran, and the returned event (always the input event,
unmodified, in every branch of the Go code). -/
def handleKey (env : Env) (ev : KeyEvent) (sel : Nat) (rows : List Row) :
    List Effect × List Row × KeyEvent :=
  if sel = 0 then ([], rows, ev)
  else
    let instanceID := cellText rows sel 1
    match ev with
    | .rune c =>
      if c = 's' then
        match env.startResult instanceID with
        | some e =>
          ([.startCall instanceID,
            .showMessage ("Error starting instance: " ++ e)], rows, ev)
        | none =>
          ([.startCall instanceID,
            .showMessage ("Starting instance: " ++ instanceID)], rows, ev)
      else if c = 't' then
        match env.stopResult instanceID with
        | some e =>
          ([.stopCall instanceID,
            .showMessage ("Error stopping instance: " ++ e)], rows, ev)
        | none =>
          ([.stopCall instanceID,
            .showMessage ("Stopping instance: " ++ instanceID)], rows, ev)
      else if c = 'q' then ([.stopApp], rows, ev)
      else if c = 'r' then
        match refreshTable env.listOutcome rows with
        | (rows2, some e) =>
          ([.listCall, .showMessage ("Error refreshing: " ++ e)], rows2, ev)
        | (rows2, none) => ([.listCall], rows2, ev)
      else ([], rows, ev)
    | .other => ([], rows, ev)

/-- The application's root view: the startup flex layout (table plus help
line), the bare table, or a modal overlay with its message. -/
inductive RootView where
  | layout
  | bareTable
  | modal : String → RootView
deriving DecidableEq, Repr

/-- The root set by `main` before the event loop: `SetRoot(flex, true)`. -/
def initialRoot : RootView := .layout

/-- Go `showMessage`: replaces the root with the modal. -/
def showMessage (message : String) (_root : RootView) : RootView :=
  .modal message

/-- The modal's done handler: `app.SetRoot(table, true)` — the bare table,
not the original flex layout. A non-modal root has no done handler. -/
def dismissModal : RootView → RootView
  | .modal _ => .bareTable
  | r => r

/-- Whether the help line is on screen: only the flex layout shows it. -/
def displaysHelp : RootView → Bool
  | .layout => true
  | _ => false

/-- The `config.LoadDefaultConfig` option, as `NewEC2Client` builds them. -/
inductive ConfigOption where
  | sharedConfigProfile : String → ConfigOption
  | region : String → ConfigOption
deriving DecidableEq, Repr

/-- The option list `NewEC2Client` passes to `config.LoadDefaultConfig`:
the named shared-config profile, and a fixed region. -/
def newEC2ClientOptions (profile : String) : List ConfigOption :=
  [.sharedConfigProfile profile, .region "ap-northeast-1"]

/-- Join as the spec words it: the identifiers joined with the separator in
order, the empty string for the empty list. -/
def specJoin (sep : String) : List String → String
  | [] => ""
  | [x] => x
  | x :: y :: xs => x ++ sep ++ specJoin sep (y :: xs)

/-- Whether the `Name`-tag scan completes without a nil dereference: every
key up to and including the first `"Name"` key is non-nil, and that tag's
value (if the scan reaches one) is non-nil. -/
def tagScanOk : List Tag → Bool
  | [] => true
  | t :: ts =>
    match t.key with
    | none => false
    | some k => if k = "Name" then (t.value).isSome else tagScanOk ts

/-- The exact precondition under which `mapInstance` is well-defined. -/
def instOk (i : AwsInstance) : Bool :=
  (i.instanceId).isSome && (i.state).isSome &&
    i.securityGroups.all (fun g => (g.groupId).isSome) && tagScanOk i.tags

/-! Helper lemmas shared by the claim theorems. -/

theorem scanNameTag_isSome (ts : List Tag) :
    (scanNameTag ts).isSome = tagScanOk ts := by
  induction ts with
  | nil => rfl
  | cons t ts ih =>
    simp only [scanNameTag, tagScanOk]
    cases t.key with
    | none => rfl
    | some k =>
      by_cases hk : k = "Name" <;> simp [hk, ih]

theorem collectGroupIds_isSome (gs : List GroupIdentifier) :
    (collectGroupIds gs).isSome = gs.all (fun g => (g.groupId).isSome) := by
  induction gs with
  | nil => rfl
  | cons g gs ih =>
    cases hg : g.groupId with
    | none => simp [collectGroupIds, hg]
    | some gid =>
      cases h : collectGroupIds gs with
      | none => rw [h] at ih; simp [collectGroupIds, hg, h, ← ih]
      | some rest => rw [h] at ih; simp [collectGroupIds, hg, h, ← ih]

theorem mapInstance_isSome (i : AwsInstance) :
    (mapInstance i).isSome = instOk i := by
  have h1 := scanNameTag_isSome i.tags
  have h2 := collectGroupIds_isSome i.securityGroups
  unfold mapInstance instOk
  cases hn : scanNameTag i.tags <;> rw [hn] at h1 <;>
    cases hg : collectGroupIds i.securityGroups <;> rw [hg] at h2 <;>
      cases hid : i.instanceId <;> cases hst : i.state <;>
        simp_all

theorem mapInstances_isSome (l : List AwsInstance) :
    (mapInstances l).isSome = l.all instOk := by
  induction l with
  | nil => rfl
  | cons i is ih =>
    have h1 := mapInstance_isSome i
    simp only [mapInstances, List.all_cons]
    cases hi : mapInstance i <;> rw [hi] at h1 <;>
      cases his : mapInstances is <;> rw [his] at ih <;> simp_all

theorem mapInstances_length_get (l : List AwsInstance) (l' : List Instance)
    (h : mapInstances l = some l') :
    l'.length = l.length ∧ ∀ k, (l.get? k).bind mapInstance = l'.get? k := by
  induction l generalizing l' with
  | nil =>
    simp only [mapInstances] at h
    cases h
    exact ⟨rfl, fun k => by simp⟩
  | cons a as ih =>
    simp only [mapInstances] at h
    cases ha : mapInstance a with
    | none => rw [ha] at h; simp at h
    | some r =>
      rw [ha] at h
      cases has : mapInstances as with
      | none => rw [has] at h; simp at h
      | some rs =>
        rw [has] at h
        simp at h
        subst h
        obtain ⟨hlen, hget⟩ := ih rs has
        refine ⟨by simp [hlen], fun k => ?_⟩
        cases k with
        | zero => simpa using ha
        | succ n => simpa using hget n

theorem specJoin_append_head (sep x y : String) (ys : List String) :
    specJoin sep ((x ++ sep ++ y) :: ys) = x ++ sep ++ specJoin sep (y :: ys) := by
  cases ys with
  | nil => simp [specJoin, String.append_assoc]
  | cons z zs => simp [specJoin, String.append_assoc]

theorem joinStrings_eq_specJoin (l : List String) (sep : String) :
    joinStrings l sep = specJoin sep l := by
  cases l with
  | nil => rfl
  | cons x xs =>
    induction xs generalizing x with
    | nil => rfl
    | cons y ys ih =>
      have h1 : joinStrings (x :: y :: ys) sep
          = joinStrings ((x ++ sep ++ y) :: ys) sep := rfl
      rw [h1, ih (x ++ sep ++ y), specJoin_append_head]
      simp [specJoin]

/-! Concrete inputs used by witnesses and counterexamples. -/

/-- A well-formed provider instance used in concrete checks. -/
def c2Inst (iid label : String) : AwsInstance :=
  { tags := [⟨some "Name", some label⟩], platform := "",
    publicIpAddress := none, networkInterfaces := [],
    securityGroups := [⟨some "sg-1"⟩], instanceId := some iid,
    state := some ⟨"running"⟩ }

/-- Three instances spread over three reservations (one empty). -/
def c2Out : DescribeInstancesOutput :=
  ⟨[⟨[c2Inst "i-1" "a"]⟩, ⟨[]⟩, ⟨[c2Inst "i-2" "b", c2Inst "i-3" "c"]⟩]⟩

/-- The display record `getInstances` builds for `c2Inst iid label`. -/
def c2Rec (iid label : String) : Instance :=
  ⟨"", iid, label, "None", "", "sg-1", "running"⟩

/-- The expected output list for `c2Out`. -/
def c2List : List Instance := [c2Rec "i-1" "a", c2Rec "i-2" "b", c2Rec "i-3" "c"]

/-- The list `c4Env`'s refresh returns. -/
def c4List : List Instance := [⟨"", "i-2", "b", "None", "", "", "stopped"⟩]

/-- Handler environment where every provider call succeeds. -/
def c4Env : Env :=
  { startResult := fun _ => none, stopResult := fun _ => none,
    listOutcome := .ok c4List }

/-- One rendered data row for concrete handler checks. -/
def c4Row : Row := renderRow ⟨"", "i-1", "a", "None", "", "", "running"⟩

/-- The spec's tag-scan example: a non-Name tag, then two Name tags. -/
def c5Tags : List Tag :=
  [⟨some "other", some "x"⟩, ⟨some "Name", some "web-1"⟩,
   ⟨some "Name", some "ignored-dup"⟩]

/-- An instance with two attached security groups. -/
def c6Inst : AwsInstance :=
  { tags := [], platform := "", publicIpAddress := none,
    networkInterfaces := [], securityGroups := [⟨some "sg-1"⟩, ⟨some "sg-2"⟩],
    instanceId := some "i-6", state := some ⟨"running"⟩ }

/-- The display record `getInstances` builds for `c6Inst`. -/
def c6Rec : Instance := ⟨"", "i-6", "", "None", "", "sg-1, sg-2", "running"⟩

/-- Two records that differ in every field except the power state. -/
def c7a : Instance := ⟨"a", "b", "c", "d", "e", "f", "running"⟩

/-- See `c7a`. -/
def c7b : Instance := ⟨"u", "v", "w", "x", "y", "z", "running"⟩

/-- An instance with a nil-Key/nil-Value tag after its first Name tag. -/
def c9Inst : AwsInstance :=
  { tags := [⟨some "Name", some "web-1"⟩, ⟨none, none⟩], platform := "",
    publicIpAddress := none, networkInterfaces := [], securityGroups := [],
    instanceId := some "i-9", state := some ⟨"running"⟩ }

/-- A response containing only `c9Inst`. -/
def c9Out : DescribeInstancesOutput := ⟨[⟨[c9Inst]⟩]⟩

/-- An instance meeting the claimed precondition (non-nil InstanceId, all
tags and groups non-nil — vacuously) whose `State` pointer is nil. -/
def c9bInst : AwsInstance :=
  { tags := [], platform := "", publicIpAddress := none,
    networkInterfaces := [], securityGroups := [],
    instanceId := some "i-10", state := none }

/-- A response containing only `c9bInst`. -/
def c9bOut : DescribeInstancesOutput := ⟨[⟨[c9bInst]⟩]⟩

/-! Claim theorems. -/

/-- C1 fails as stated: `NewEC2Client` does implement its own region
choice — the options it passes to the provider's config loader include a
fixed region, `"ap-northeast-1"`, for the default profile argument. -/
theorem newEC2Client_fixed_region_cex :
    ConfigOption.region "ap-northeast-1" ∈ newEC2ClientOptions "default" := by
  decide

/-- C1 (amended): for every profile argument, `NewEC2Client` delegates
credential resolution by selecting the named shared-config profile and
passes no other option except a fixed region `"ap-northeast-1"`; so
credentials are delegated to the host environment, but the region is
fixed by the client rather than delegated. -/
theorem newEC2Client_profile_and_fixed_region (profile : String) :
    ConfigOption.sharedConfigProfile profile ∈ newEC2ClientOptions profile ∧
      ConfigOption.region "ap-northeast-1" ∈ newEC2ClientOptions profile ∧
      ∀ o ∈ newEC2ClientOptions profile,
        o = ConfigOption.sharedConfigProfile profile ∨
          o = ConfigOption.region "ap-northeast-1" := by
  refine ⟨by simp [newEC2ClientOptions], by simp [newEC2ClientOptions], ?_⟩
  intro o ho
  simp only [newEC2ClientOptions, List.mem_cons, List.mem_singleton] at ho
  rcases ho with h | h | h
  · exact Or.inl h
  · exact Or.inr h
  · exact absurd h (by simp)

/-- Witness for C1's amended theorem at the default profile. -/
theorem newEC2Client_profile_and_fixed_region_witness :
    ConfigOption.sharedConfigProfile "default" ∈ newEC2ClientOptions "default" :=
  (newEC2Client_profile_and_fixed_region "default").1

/-- C3: refresh is all-or-nothing: when the list call fails,
`refreshTable` returns the error and the rows below the header are
exactly as they were; rendering a list and then attempting a refresh
that fails leaves the table equal to the original rendering. -/
theorem refreshTable_failure_preserves_rows (e : String) (rows : List Row) :
    refreshTable (.err e) rows = (rows, some e) ∧
      ∀ l1 : List Instance,
        (refreshTable (.err e) (refreshTable (.ok l1) rows).1).1 = renderRows l1 :=
  ⟨rfl, fun _ => rfl⟩

/-- C8: with the header row (row 0) selected, pressing 's' or 't' emits
no provider call and no message, leaves the rows unchanged, and returns
the event unmodified. -/
theorem header_row_noop (env : Env) (rows : List Row) :
    handleKey env (.rune 's') 0 rows = ([], rows, .rune 's') ∧
      handleKey env (.rune 't') 0 rows = ([], rows, .rune 't') :=
  ⟨rfl, rfl⟩

/-- C10: acknowledging any modal sets the root to the bare table, which
does not display the help line, while the startup root does; and no
transition of the view ever restores the startup layout, so the help
line stays gone for the remainder of the run. -/
theorem modal_ack_drops_help (root : RootView) (m : String) :
    dismissModal (showMessage m root) = RootView.bareTable ∧
      displaysHelp (dismissModal (showMessage m root)) = false ∧
      displaysHelp initialRoot = true ∧
      RootView.bareTable ≠ initialRoot ∧
      (∀ r : RootView, displaysHelp (showMessage m r) = false) ∧
      ∀ r : RootView, r ≠ RootView.layout → dismissModal r ≠ RootView.layout := by
  refine ⟨rfl, rfl, rfl, by decide, fun r => rfl, ?_⟩
  intro r hr
  cases r with
  | layout => exact absurd rfl hr
  | bareTable => decide
  | modal m2 => simp [dismissModal]

/-- Witness for C10 at a concrete non-layout root. -/
theorem modal_ack_drops_help_witness :
    RootView.bareTable ≠ RootView.layout ∧
      dismissModal RootView.bareTable ≠ RootView.layout :=
  ⟨by decide,
    (modal_ack_drops_help RootView.bareTable "m").2.2.2.2.2
      RootView.bareTable (by decide)⟩

/-- C2: when `getInstances` returns a list for a provider response, the
list has exactly one entry per instance record of the response, the
reservations flattened in provider order: the result has the length of
the flattened instance list, and position `k` of the result is exactly
the mapping of position `k` of the flattened response — so there is no
sorting, filtering, or duplication. -/
theorem getInstances_count_and_order (out : DescribeInstancesOutput)
    (l : List Instance) (h : getInstances (.ok out) = some (.ok l)) :
    l.length = (flattenInstances out).length ∧
      ∀ k, ((flattenInstances out).get? k).bind mapInstance = l.get? k := by
  have hm : mapInstances (flattenInstances out) = some l := by
    have h2 : Option.map PResult.ok (mapInstances (flattenInstances out))
        = some (PResult.ok l) := h
    cases hmm : mapInstances (flattenInstances out) with
    | none => rw [hmm] at h2; simp at h2
    | some l0 =>
      rw [hmm] at h2
      simp at h2
      rw [h2]
  exact mapInstances_length_get _ _ hm

/-- Witness for C2 on a response with three instances in three
reservations (one of them empty). -/
theorem getInstances_count_and_order_witness :
    getInstances (.ok c2Out) = some (.ok c2List) ∧
      c2List.length = (flattenInstances c2Out).length :=
  ⟨by decide, (getInstances_count_and_order c2Out c2List (by decide)).1⟩

/-- C4 fails as stated: a successful refresh produces no modal message.
Pressing 'r' with a data row selected and a succeeding list call emits
only the provider list call, and no `showMessage` effect. -/
theorem refresh_success_no_modal_cex :
    (handleKey c4Env (.rune 'r') 1 [c4Row]).1 = [Effect.listCall] := by
  decide

/-- C4 (amended): with a data row selected, every start outcome, every
stop outcome (success or failure alike) and every failed refresh is
surfaced through a `showMessage` modal the operator must acknowledge;
a successful refresh, however, emits no modal message. -/
theorem modal_on_action_outcomes (env : Env) (sel : Nat) (rows : List Row)
    (h : sel ≠ 0) :
    (∃ m, Effect.showMessage m ∈ (handleKey env (.rune 's') sel rows).1) ∧
      (∃ m, Effect.showMessage m ∈ (handleKey env (.rune 't') sel rows).1) ∧
      (∀ e, env.listOutcome = .err e →
        Effect.showMessage ("Error refreshing: " ++ e)
          ∈ (handleKey env (.rune 'r') sel rows).1) ∧
      (∀ l, env.listOutcome = .ok l →
        ∀ m, Effect.showMessage m ∉ (handleKey env (.rune 'r') sel rows).1) := by
  refine ⟨?_, ?_, ?_, ?_⟩
  · cases hs : env.startResult (cellText rows sel 1) with
    | none =>
      exact ⟨"Starting instance: " ++ cellText rows sel 1,
        by simp [handleKey, h, hs]⟩
    | some e =>
      exact ⟨"Error starting instance: " ++ e, by simp [handleKey, h, hs]⟩
  · cases hs : env.stopResult (cellText rows sel 1) with
    | none =>
      exact ⟨"Stopping instance: " ++ cellText rows sel 1,
        by simp [handleKey, h, hs]⟩
    | some e =>
      exact ⟨"Error stopping instance: " ++ e, by simp [handleKey, h, hs]⟩
  · intro e he
    simp [handleKey, h, he, refreshTable]
  · intro l hl m
    simp [handleKey, h, hl, refreshTable]

/-- Witness for C4's amended theorem: a successful refresh in `c4Env`
emits no modal message for the concrete text "x". -/
theorem modal_on_action_outcomes_witness :
    (1 : Nat) ≠ 0 ∧
      Effect.showMessage "x" ∉ (handleKey c4Env (.rune 'r') 1 [c4Row]).1 :=
  ⟨by decide,
    (modal_on_action_outcomes c4Env 1 [c4Row] (by decide)).2.2.2 c4List rfl "x"⟩

/-- C5: whenever the Name-tag scan completes, the resulting display name
is the value of the first tag (in provider order) whose key is exactly
"Name", and the empty string when no tag has key "Name"; later "Name"
tags are ignored because the scan stops at the first match. -/
theorem displayName_first_name_tag (tags : List Tag) (n : String)
    (h : scanNameTag tags = some n) :
    n = ((tags.find? fun t => t.key == some "Name").bind Tag.value).getD "" := by
  induction tags with
  | nil =>
    simp only [scanNameTag, Option.some.injEq] at h
    subst h
    rfl
  | cons t ts ih =>
    cases hk : t.key with
    | none => simp [scanNameTag, hk] at h
    | some k =>
      by_cases hname : k = "Name"
      · subst hname
        have hh : t.value = some n := by simpa [scanNameTag, hk] using h
        have hp : (fun t => t.key == some "Name") t = true := by simp [hk]
        rw [List.find?_cons_of_pos (p := fun t => t.key == some "Name") ts hp]
        simp [hh]
      · have hh : scanNameTag ts = some n := by
          simpa [scanNameTag, hk, hname] using h
        have hp : ¬ (fun t => t.key == some "Name") t = true := by
          simp [hk, hname]
        rw [List.find?_cons_of_neg (p := fun t => t.key == some "Name") ts hp]
        exact ih hh

/-- Witness for C5 on the spec's example tag list: the first "Name" tag
wins and the duplicate is ignored. -/
theorem displayName_first_name_tag_witness :
    scanNameTag c5Tags = some "web-1" ∧
      "web-1" =
        ((c5Tags.find? fun t => t.key == some "Name").bind Tag.value).getD "" :=
  ⟨by decide, displayName_first_name_tag c5Tags "web-1" (by decide)⟩

/-- C6: the rendered security-group field is the attached identifiers
joined with ", " in provider return order, and empty for the empty list:
`joinStrings` agrees with the spec's join on every list and separator,
the spec's two examples hold, and the `securityGroupId` field of every
successfully mapped record is the spec join of the collected group ids. -/
theorem securityGroup_field_join :
    (∀ (l : List String) (sep : String), joinStrings l sep = specJoin sep l) ∧
      joinStrings ["sg-1", "sg-2"] ", " = "sg-1, sg-2" ∧
      joinStrings [] ", " = "" ∧
      ∀ (i : AwsInstance) (r : Instance) (ids : List String),
        mapInstance i = some r → collectGroupIds i.securityGroups = some ids →
          r.securityGroupId = specJoin ", " ids := by
  refine ⟨joinStrings_eq_specJoin, by decide, rfl, ?_⟩
  intro i r ids h1 h2
  unfold mapInstance at h1
  rw [h2] at h1
  cases hn : scanNameTag i.tags with
  | none => rw [hn] at h1; simp at h1
  | some name =>
    rw [hn] at h1
    cases hid : i.instanceId with
    | none => rw [hid] at h1; simp at h1
    | some iid =>
      rw [hid] at h1
      cases hst : i.state with
      | none => rw [hst] at h1; simp at h1
      | some st =>
        rw [hst] at h1
        simp at h1
        subst h1
        simpa using joinStrings_eq_specJoin ids ", "

/-- Witness for C6's record part on a concrete instance with two groups. -/
theorem securityGroup_field_join_witness :
    mapInstance c6Inst = some c6Rec ∧
      c6Rec.securityGroupId = specJoin ", " ["sg-1", "sg-2"] :=
  ⟨by decide,
    securityGroup_field_join.2.2.2 c6Inst c6Rec ["sg-1", "sg-2"]
      (by decide) (by decide)⟩

/-- C7: the State-cell color is a pure function of the power-state string
alone: "running" is green, "stopped" red, "pending" and "stopping"
yellow, and every other value keeps the default color; two records with
the same state string get the same color regardless of their other
fields. -/
theorem stateColor_mapping_pure (s : String) (i1 i2 : Instance)
    (hs1 : s ≠ "running") (hs2 : s ≠ "stopped") (hs3 : s ≠ "pending")
    (hs4 : s ≠ "stopping") (hstate : i1.state = i2.state) :
    stateColor "running" = Color.green ∧
      stateColor "stopped" = Color.red ∧
      stateColor "pending" = Color.yellow ∧
      stateColor "stopping" = Color.yellow ∧
      stateColor s = Color.default ∧
      ((renderRow i1).get? 6).map Cell.color
        = ((renderRow i2).get? 6).map Cell.color := by
  refine ⟨rfl, rfl, rfl, rfl, ?_, ?_⟩
  · simp [stateColor, hs1, hs2, hs3, hs4]
  · simp [renderRow, hstate]

/-- Witness for C7 at the state "terminated" and two records agreeing
only in their state. -/
theorem stateColor_mapping_pure_witness :
    ("terminated" : String) ≠ "running" ∧
      stateColor "terminated" = Color.default :=
  ⟨by decide,
    (stateColor_mapping_pure "terminated" c7a c7b (by decide) (by decide)
      (by decide) (by decide) rfl).2.2.2.2.1⟩

/-- C9 fails as stated: the claimed precondition is neither necessary nor
sufficient. `c9Inst` has a tag with nil Key and nil Value — violating the
claimed precondition — yet `getInstances` succeeds, because tags after
the first "Name" match are never dereferenced; and `c9bInst` satisfies
the claimed precondition (non-nil InstanceId, no tags, no groups) yet
`getInstances` fails, because the code also dereferences the instance's
nil `State` pointer. -/
theorem getInstances_precondition_cex :
    ((c9Inst.tags.any fun t => (t.key).isNone) = true ∧
        getInstances (.ok c9Out)
          = some (.ok [⟨"", "i-9", "web-1", "None", "", "", "running"⟩])) ∧
      ((c9bInst.instanceId).isSome = true ∧ c9bInst.tags = [] ∧
        c9bInst.securityGroups = [] ∧ getInstances (.ok c9bOut) = none) := by
  decide

/-- C9 (amended): `getInstances` is well-defined exactly when every
returned instance has a non-nil InstanceId and a non-nil State, every
security group has a non-nil GroupId, every tag up to and including the
first "Name"-keyed tag has a non-nil Key, and that tag (when the scan
reaches one) has a non-nil Value; a provider response violating this
makes the mapping fail (the Go code panics) rather than render a
default, and tags after the first "Name" match are never dereferenced. -/
theorem getInstances_defined_iff_instOk (out : DescribeInstancesOutput) :
    (getInstances (.ok out)).isSome = (flattenInstances out).all instOk := by
  have h : getInstances (.ok out)
      = Option.map PResult.ok (mapInstances (flattenInstances out)) := rfl
  rw [h, ← mapInstances_isSome]
  cases mapInstances (flattenInstances out) <;> rfl

end EC2Manager
